import Mathlib

/-!
Verification of the `map_merge` merging pipeline (m-explore repository).

The development shallowly embeds the merging pipeline: the external pose
representation (`geometry_msgs` translation + quaternion), the internal 3x3
homogeneous transform matrix, the bidirectional converter between the two,
the grid rasterizer, the transform estimator built on top of the opaque
vision primitives (feature finder, pairwise matcher, global estimator), and
the grid composer.  Machine doubles are modelled by real numbers, so the
"to float precision" clauses of the specification become exact equalities.

The internal estimation primitive `opencvEstimateTransform` is translated
from `src/map_merge/src/combine_grids/estimate_transform.cpp`.  The
`MergingPipeline` surface (`feed`, `estimateTransform`, `composeGrids`,
`getTransforms`, `setTransforms`), the converter and the rasterizer are not
part of the given sources (only their tests are), so they are modelled from
the specification; each such definition says so in its doc comment.
-/

namespace geometry_msgs

/-- A 3D translation vector, as in `geometry_msgs/Vector3`. -/
structure Vector3 where
  x : ℝ
  y : ℝ
  z : ℝ

/-- A rotation quaternion, as in `geometry_msgs/Quaternion`. -/
structure Quaternion where
  x : ℝ
  y : ℝ
  z : ℝ
  w : ℝ

/-- An external pose: 3D translation plus rotation quaternion, as in
`geometry_msgs/Transform`.  This is the `ExternalTransform` of the spec. -/
structure Transform where
  translation : Vector3
  rotation : Quaternion

end geometry_msgs

namespace combine_grids

/-- Squared norm of a quaternion. -/
def quatNormSq (q : geometry_msgs.Quaternion) : ℝ :=
  q.x ^ 2 + q.y ^ 2 + q.z ^ 2 + q.w ^ 2

/-- A 3x3 homogeneous matrix over the reals: the `InternalTransform` of the
spec (the pipeline stores these as 3x3 `cv::Mat` of doubles).  Field `mRC`
is the entry at row R, column C. -/
structure Mat3 where
  m00 : ℝ
  m01 : ℝ
  m02 : ℝ
  m10 : ℝ
  m11 : ℝ
  m12 : ℝ
  m20 : ℝ
  m21 : ℝ
  m22 : ℝ

/-- The identity matrix. -/
def mat3Id : Mat3 := ⟨1, 0, 0, 0, 1, 0, 0, 0, 1⟩

/-- Matrix product. -/
def mat3Mul (a b : Mat3) : Mat3 :=
  ⟨a.m00 * b.m00 + a.m01 * b.m10 + a.m02 * b.m20,
   a.m00 * b.m01 + a.m01 * b.m11 + a.m02 * b.m21,
   a.m00 * b.m02 + a.m01 * b.m12 + a.m02 * b.m22,
   a.m10 * b.m00 + a.m11 * b.m10 + a.m12 * b.m20,
   a.m10 * b.m01 + a.m11 * b.m11 + a.m12 * b.m21,
   a.m10 * b.m02 + a.m11 * b.m12 + a.m12 * b.m22,
   a.m20 * b.m00 + a.m21 * b.m10 + a.m22 * b.m20,
   a.m20 * b.m01 + a.m21 * b.m11 + a.m22 * b.m21,
   a.m20 * b.m02 + a.m21 * b.m12 + a.m22 * b.m22⟩

/-- Determinant of a 3x3 matrix. -/
def mat3Det (a : Mat3) : ℝ :=
  a.m00 * (a.m11 * a.m22 - a.m12 * a.m21)
    - a.m01 * (a.m10 * a.m22 - a.m12 * a.m20)
    + a.m02 * (a.m10 * a.m21 - a.m11 * a.m20)

/-- Inverse of a 3x3 matrix via the adjugate (the zero matrix when the
determinant vanishes, mirroring the convention of `cv::Mat::inv`). -/
noncomputable def mat3Inv (a : Mat3) : Mat3 :=
  let d := mat3Det a
  ⟨(a.m11 * a.m22 - a.m12 * a.m21) / d,
   (a.m02 * a.m21 - a.m01 * a.m22) / d,
   (a.m01 * a.m12 - a.m02 * a.m11) / d,
   (a.m12 * a.m20 - a.m10 * a.m22) / d,
   (a.m00 * a.m22 - a.m02 * a.m20) / d,
   (a.m02 * a.m10 - a.m00 * a.m12) / d,
   (a.m10 * a.m21 - a.m11 * a.m20) / d,
   (a.m01 * a.m20 - a.m00 * a.m21) / d,
   (a.m00 * a.m11 - a.m01 * a.m10) / d⟩

/-- The two-argument arctangent, `atan2 y x`, realised as the principal
argument of the complex number `x + y i`; its value lies in (-pi, pi]. -/
noncomputable def atan2 (y x : ℝ) : ℝ := Complex.arg ⟨x, y⟩

/-- The yaw (rotation about the out-of-plane z axis) of a quaternion, by the
standard formula `atan2 (2(wz+xy)) (1-2(y^2+z^2))` used by `tf2::getYaw`. -/
noncomputable def yawOf (q : geometry_msgs.Quaternion) : ℝ :=
  atan2 (2 * (q.w * q.z + q.x * q.y)) (1 - 2 * (q.y ^ 2 + q.z ^ 2))

/-- Modelled from the spec: `toInternal` of the Transform Converter (§4.3),
whose implementation is not among the given sources.  It "projects the
quaternion's out-of-plane rotation component and the x/y translation into a
2D homogeneous matrix, discarding z-translation and any rotation component
not about the out-of-plane axis". -/
noncomputable def toInternal (t : geometry_msgs.Transform) : Mat3 :=
  let θ := yawOf t.rotation
  ⟨Real.cos θ, -Real.sin θ, t.translation.x,
   Real.sin θ, Real.cos θ, t.translation.y,
   0, 0, 1⟩

/-- Modelled from the spec: `toExternal` of the Transform Converter (§4.3),
whose implementation is not among the given sources.  It "extracts the 2D
rotation angle and translation from the matrix, builds a quaternion
representing an equivalent rotation about the out-of-plane axis,
z-translation fixed at 0". -/
noncomputable def toExternal (m : Mat3) : geometry_msgs.Transform :=
  let θ := atan2 m.m10 m.m00
  { translation := ⟨m.m02, m.m12, 0⟩
    rotation := ⟨0, 0, Real.sin (θ / 2), Real.cos (θ / 2)⟩ }

/-- Action of an external transform on a 3D point: the rotation matrix of
the (unit) quaternion applied to the point, plus the translation.  This is
the semantics of `tf2::Transform::operator*(const Vector3&)` used by the
tests to apply an `ExternalTransform` to a point directly. -/
def applyTransform (t : geometry_msgs.Transform) (v : geometry_msgs.Vector3) :
    geometry_msgs.Vector3 :=
  let q := t.rotation
  ⟨(1 - 2 * (q.y ^ 2 + q.z ^ 2)) * v.x + 2 * (q.x * q.y - q.z * q.w) * v.y
      + 2 * (q.x * q.z + q.y * q.w) * v.z + t.translation.x,
   2 * (q.x * q.y + q.z * q.w) * v.x + (1 - 2 * (q.x ^ 2 + q.z ^ 2)) * v.y
      + 2 * (q.y * q.z - q.x * q.w) * v.z + t.translation.y,
   2 * (q.x * q.z - q.y * q.w) * v.x + 2 * (q.y * q.z + q.x * q.w) * v.y
      + (1 - 2 * (q.x ^ 2 + q.y ^ 2)) * v.z + t.translation.z⟩

/-- Multiplication of a 3x3 homogeneous matrix with the homogeneous form
`(x, y, 1)` of a 2D point, keeping the first two coordinates. -/
def applyHom (m : Mat3) (x y : ℝ) : ℝ × ℝ :=
  (m.m00 * x + m.m01 * y + m.m02, m.m10 * x + m.m11 * y + m.m12)

/-- A pose: position plus orientation quaternion, as in
`geometry_msgs/Pose`; used for the origin of an occupancy grid. -/
structure Pose where
  px : ℝ
  py : ℝ
  pz : ℝ
  qx : ℝ
  qy : ℝ
  qz : ℝ
  qw : ℝ

/-- An occupancy grid, as in `nav_msgs/OccupancyGrid`: metadata (resolution
in metres per cell, width and height in cells, origin pose of cell (0,0))
and a row-major sequence of cell values, `-1` denoting unknown and `0..100`
the occupancy scale. -/
structure OccupancyGrid where
  resolution : ℝ
  width : Nat
  height : Nat
  origin : Pose
  data : List Int

/-- A single-channel intensity image, the output of the grid rasterizer. -/
structure ImageG where
  width : Nat
  height : Nat
  pixels : List Nat

/-- Modelled from the spec: the cell-to-intensity map of the Grid
Rasterizer (§4.1), whose implementation is not among the given sources.
Unknown cells map to a distinguished neutral intensity and occupied/free
cells map monotonically across the intensity range. -/
def rasterizeCell (v : Int) : Nat :=
  if v < 0 then 128 else 255 - (v.toNat * 255) / 100

/-- Modelled from the spec: the Grid Rasterizer (§4.1), whose
implementation is not among the given sources.  It converts one occupancy
grid's cells into a single-channel intensity image of identical
width/height; a pure, deterministic function. -/
def rasterize (g : OccupancyGrid) : ImageG :=
  ⟨g.width, g.height, g.data.map rasterizeCell⟩

/-- The opaque vision primitives consumed by the estimator (spec §6): a
per-image feature finder (`cv::detail::OrbFeaturesFinder`), a pairwise
matcher over the whole feature set (`cv::detail::BestOf2NearestRangeMatcher`),
a global estimator producing one camera parameter set per image or a
failure signal (`cv::detail::HomographyBasedEstimator`), and the extraction
of a 2D transform from one camera parameter set. -/
structure VisionPrimitives (Img Feat Mtch Cam : Type) where
  findFeatures : Img → Feat
  matchFeatures : List Feat → List Mtch
  estimate : List Feat → List Mtch → Option (List Cam)
  cameraToTransform : Cam → Mat3

/-- Translated from `src/map_merge/src/combine_grids/estimate_transform.cpp`
(`combine_grids::internal::opencvEstimateTransform`): with fewer than 2
images it returns false; otherwise it extracts features from every image,
runs the pairwise matcher on the whole feature set, runs the global
estimator once, and returns whether the estimator succeeded.  The camera
parameters the estimator computes are local to the function and are
discarded; only the boolean is returned. -/
def opencvEstimateTransform {Img Feat Mtch Cam : Type}
    (V : VisionPrimitives Img Feat Mtch Cam) (images : List Img) : Bool :=
  if images.length < 2 then false
  else
    let image_features := images.map V.findFeatures
    let pairwise_matches := V.matchFeatures image_features
    match V.estimate image_features pairwise_matches with
    | none => false
    | some _ => true

/-- State of one merging pipeline instance: the immutable input snapshot
and the per-grid internal transforms (empty when unset). -/
structure MergingPipeline where
  grids_ : List OccupancyGrid
  transforms_ : List Mat3

/-- Modelled from the spec: `feed` (§6), whose implementation is not among
the given sources.  It replaces the input snapshot and clears any
previously computed transforms. -/
def MergingPipeline.feed (gs : List OccupancyGrid) (_p : MergingPipeline) :
    MergingPipeline :=
  ⟨gs, []⟩

/-- Re-expresses a list of per-image transforms relative to its first
element, anchoring the global frame to input 0 (spec §3: "transforms_[0]
must be the identity whenever estimation succeeds"). -/
noncomputable def anchorTransforms : List Mat3 → List Mat3
  | [] => []
  | t0 :: rest => mat3Id :: rest.map fun t => mat3Mul (mat3Inv t0) t

/-- Modelled from the spec: `estimateTransform` (§4.2), whose
implementation is not among the given sources.  0 grids trivially succeed
with an empty transform list; 1 grid trivially succeeds with the identity
transform and performs no feature work; for 2 or more grids it rasterizes
all grids and performs the feature/matching/estimation sequence of
`opencvEstimateTransform`, storing the per-grid transforms anchored to
input 0 on success and leaving the transform list empty on failure. -/
noncomputable def MergingPipeline.estimateTransform {Feat Mtch Cam : Type}
    (V : VisionPrimitives ImageG Feat Mtch Cam) (p : MergingPipeline) :
    Bool × MergingPipeline :=
  match p.grids_ with
  | [] => (true, { p with transforms_ := [] })
  | [_] => (true, { p with transforms_ := [mat3Id] })
  | _ :: _ :: _ =>
    let images := p.grids_.map rasterize
    let image_features := images.map V.findFeatures
    let pairwise_matches := V.matchFeatures image_features
    match V.estimate image_features pairwise_matches with
    | none => (false, { p with transforms_ := [] })
    | some cams =>
      (true, { p with transforms_ := anchorTransforms (cams.map V.cameraToTransform) })

/-- Modelled from the spec: `getTransforms` (§6), whose implementation is
not among the given sources.  It returns the stored internal transforms in
external form, one per stored transform. -/
noncomputable def MergingPipeline.getTransforms (p : MergingPipeline) :
    List geometry_msgs.Transform :=
  p.transforms_.map toExternal

/-- Modelled from the spec: `setTransforms` (§6), whose implementation is
not among the given sources.  It overwrites the internal transforms from
externally supplied poses, bypassing estimation; a length different from
the grid count is a precondition violation, modelled as `none`. -/
noncomputable def MergingPipeline.setTransforms
    (ts : List geometry_msgs.Transform) (p : MergingPipeline) :
    Option MergingPipeline :=
  if ts.length = p.grids_.length then
    some { p with transforms_ := ts.map toInternal }
  else none

/-- Modelled from the spec: the general (2 or more grids) branch of the
Grid Composer (§4.4), whose implementation is not among the given sources.
It computes the bounding box, in the global frame, of the four corners of
every warped source grid, sizes the canvas to cover the union, forward
warps each source cell to its nearest canvas cell, and fuses overlaps:
known values take precedence over unknown, and among known values the
earliest input wins (a deterministic tie-break). -/
noncomputable def mergeGrids (gs : List OccupancyGrid) (ts : List Mat3) :
    OccupancyGrid :=
  let pairs := gs.zip ts
  let cornersOf := fun (g : OccupancyGrid) (t : Mat3) =>
    [applyHom t 0 0, applyHom t (g.width : ℝ) 0,
     applyHom t 0 (g.height : ℝ), applyHom t (g.width : ℝ) (g.height : ℝ)]
  let corners := (pairs.map fun gt => cornersOf gt.1 gt.2).flatten
  let xs := corners.map Prod.fst
  let ys := corners.map Prod.snd
  let minX : ℤ := ⌊xs.foldr min 0⌋
  let minY : ℤ := ⌊ys.foldr min 0⌋
  let w : Nat := (⌈xs.foldr max 0⌉ - minX).toNat
  let h : Nat := (⌈ys.foldr max 0⌉ - minY).toNat
  let step := fun (acc : List Int) (gt : OccupancyGrid × Mat3) =>
    (gt.1.data.enum).foldl
      (fun acc2 iv =>
        let cx : ℝ := (iv.1 % gt.1.width : Nat)
        let cy : ℝ := (iv.1 / gt.1.width : Nat)
        let q := applyHom gt.2 cx cy
        let tx : ℤ := ⌊q.1⌋ - minX
        let ty : ℤ := ⌊q.2⌋ - minY
        if 0 ≤ tx ∧ tx < (w : ℤ) ∧ 0 ≤ ty ∧ ty < (h : ℤ) then
          let idx := ty.toNat * w + tx.toNat
          let cur := acc2.getD idx (-1)
          acc2.set idx (if cur = -1 then iv.2 else cur)
        else acc2)
      acc
  let res := (gs.map OccupancyGrid.resolution).headD 1
  let base := (gs.map OccupancyGrid.origin).headD ⟨0, 0, 0, 0, 0, 0, 1⟩
  { resolution := res
    width := w
    height := h
    origin := { base with px := base.px + (minX : ℝ) * res,
                          py := base.py + (minY : ℝ) * res }
    data := pairs.foldl step (List.replicate (w * h) (-1)) }

/-- Modelled from the spec: `composeGrids` (§4.4), whose implementation is
not among the given sources.  Precondition: transform count equals grid
count (otherwise no merged grid can be produced, `none`).  0 grids return
`none`; exactly 1 grid returns an exact copy of that grid, no resampling;
2 or more grids are composed by `mergeGrids`. -/
noncomputable def MergingPipeline.composeGrids (p : MergingPipeline) :
    Option OccupancyGrid :=
  if p.transforms_.length = p.grids_.length then
    match p.grids_, p.transforms_ with
    | [], _ => none
    | [g], _ => some g
    | gs, ts => some (mergeGrids gs ts)
  else none

/-- Concrete vision primitives over trivial feature types whose estimator
always succeeds with one camera per image; used to exercise the estimator
at concrete inputs. -/
def demoV : VisionPrimitives ImageG Unit Unit Unit :=
  { findFeatures := fun _ => ()
    matchFeatures := fun _ => []
    estimate := fun fs _ => some (fs.map fun _ => ())
    cameraToTransform := fun _ => mat3Id }

/-- Concrete vision primitives whose estimator always fails. -/
def demoVFail : VisionPrimitives ImageG Unit Unit Unit :=
  { findFeatures := fun _ => ()
    matchFeatures := fun _ => []
    estimate := fun _ _ => none
    cameraToTransform := fun _ => mat3Id }

/-- A tiny concrete occupancy grid used to instantiate the theorems. -/
def demoGrid : OccupancyGrid :=
  ⟨1, 2, 2, ⟨0, 0, 0, 0, 0, 0, 1⟩, [0, 100, -1, 50]⟩

/-- A second tiny concrete occupancy grid. -/
def demoGrid2 : OccupancyGrid :=
  ⟨1, 2, 2, ⟨0, 0, 0, 0, 0, 0, 1⟩, [100, 0, 50, -1]⟩

end combine_grids

namespace combine_grids

lemma one_sub_two_sin_sq (x : ℝ) :
    1 - 2 * Real.sin x ^ 2 = Real.cos (2 * x) := by
  have h := Real.cos_two_mul x
  have hs := Real.sin_sq_add_cos_sq x
  linarith

lemma arg_mk_cos_sin {θ : ℝ} (h : θ ∈ Set.Ioc (-Real.pi) Real.pi) :
    Complex.arg ⟨Real.cos θ, Real.sin θ⟩ = θ := by
  rw [Complex.mk_eq_add_mul_I, Complex.ofReal_cos, Complex.ofReal_sin]
  exact Complex.arg_cos_add_sin_mul_I h

lemma abs_mk_unit {a b : ℝ} (h : a ^ 2 + b ^ 2 = 1) :
    Complex.abs ⟨a, b⟩ = 1 := by
  rw [Complex.abs_apply, Complex.normSq_mk,
    show a * a + b * b = 1 by nlinarith]
  exact Real.sqrt_one

lemma cos_arg_unit {a b : ℝ} (h : a ^ 2 + b ^ 2 = 1) :
    Real.cos (Complex.arg ⟨a, b⟩) = a := by
  have habs := abs_mk_unit h
  have hz : (⟨a, b⟩ : ℂ) ≠ 0 := by
    intro h0
    rw [h0] at habs
    simp at habs
  rw [Complex.cos_arg hz, habs]
  simp

lemma sin_arg_unit {a b : ℝ} (h : a ^ 2 + b ^ 2 = 1) :
    Real.sin (Complex.arg ⟨a, b⟩) = b := by
  have habs := abs_mk_unit h
  rw [Complex.sin_arg, habs]
  simp

/-- C4: for every InternalTransform matrix given to the converter, the
quaternion of the ExternalTransform returned by `getTransforms` is
unit-normalized: x^2 + y^2 + z^2 + w^2 equals 1. -/
theorem getTransforms_unit_quaternion (p : MergingPipeline)
    (e : geometry_msgs.Transform) (he : e ∈ p.getTransforms) :
    quatNormSq e.rotation = 1 := by
  rw [MergingPipeline.getTransforms, List.mem_map] at he
  obtain ⟨m, _, rfl⟩ := he
  have h := Real.sin_sq_add_cos_sq (atan2 m.m10 m.m00 / 2)
  simp only [toExternal, quatNormSq]
  norm_num

/-- Witness for C4: the converter applied to the identity matrix stored in
a concrete pipeline yields a unit quaternion. -/
theorem getTransforms_unit_quaternion_witness :
    quatNormSq (toExternal mat3Id).rotation = 1 :=
  getTransforms_unit_quaternion ⟨[], [mat3Id]⟩ (toExternal mat3Id)
    (by simp [MergingPipeline.getTransforms])

/-- Counterexample to C3 as stated: the external transform with unit
quaternion (0,0,0,1), already sign-normalized with w = 1 >= 0, and
translation (0,0,1) does not survive the round trip: `toInternal` discards
the z-translation and `toExternal` fixes it at 0, so the round trip returns
z-translation 0 instead of 1. -/
theorem roundTrip_counterexample :
    quatNormSq (⟨⟨0, 0, 1⟩, ⟨0, 0, 0, 1⟩⟩ :
        geometry_msgs.Transform).rotation = 1 ∧
    (0 : ℝ) ≤ (⟨⟨0, 0, 1⟩, ⟨0, 0, 0, 1⟩⟩ :
        geometry_msgs.Transform).rotation.w ∧
    (toExternal (toInternal ⟨⟨0, 0, 1⟩, ⟨0, 0, 0, 1⟩⟩)).translation.z ≠
      (⟨⟨0, 0, 1⟩, ⟨0, 0, 0, 1⟩⟩ :
        geometry_msgs.Transform).translation.z := by
  refine ⟨by norm_num [quatNormSq], by norm_num, ?_⟩
  simp only [toExternal]
  norm_num

/-- C3 (amended): for every planar ExternalTransform t, that is one with
z-translation 0 and a unit quaternion purely about the out-of-plane axis
(x = y = 0) with w > 0, setting it via `toInternal` and reading it back via
`toExternal` reproduces t exactly: all translation and rotation
components.  (The original claim over all unit quaternions with w >= 0
fails, because the converter discards z-translation and out-of-plane
rotation, and at w = 0 the sign of z is not preserved.) -/
theorem roundTrip_planar (t : geometry_msgs.Transform)
    (hx : t.rotation.x = 0) (hy : t.rotation.y = 0)
    (hz : t.translation.z = 0)
    (hunit : quatNormSq t.rotation = 1) (hw : 0 < t.rotation.w) :
    toExternal (toInternal t) = t := by
  obtain ⟨⟨tx, ty, tz⟩, ⟨qx, qy, qz, qw⟩⟩ := t
  dsimp only at hx hy hz hw
  subst hx hy hz
  have hunit' : qz ^ 2 + qw ^ 2 = 1 := by
    norm_num [quatNormSq] at hunit
    linarith
  have h1 : -1 < qz := by nlinarith [mul_pos hw hw]
  have h2 : qz < 1 := by nlinarith [mul_pos hw hw]
  set φ := Real.arcsin qz with hφ
  have hsin : Real.sin φ = qz := Real.sin_arcsin (by linarith) (by linarith)
  have hcos : Real.cos φ = qw := by
    rw [hφ, Real.cos_arcsin, show 1 - qz ^ 2 = qw ^ 2 by linarith]
    exact Real.sqrt_sq hw.le
  have hφ1 : φ < Real.pi / 2 := Real.arcsin_lt_pi_div_two.mpr h2
  have hφ2 : -(Real.pi / 2) < φ := Real.neg_pi_div_two_lt_arcsin.mpr h1
  have hmem : 2 * φ ∈ Set.Ioc (-Real.pi) Real.pi := ⟨by linarith, by linarith⟩
  have hyaw : yawOf ⟨0, 0, qz, qw⟩ = 2 * φ := by
    simp only [yawOf, atan2]
    rw [show 1 - 2 * ((0 : ℝ) ^ 2 + qz ^ 2) = Real.cos (2 * φ) by
          rw [← one_sub_two_sin_sq φ, hsin]; ring,
        show 2 * (qw * qz + (0 : ℝ) * 0) = Real.sin (2 * φ) by
          rw [Real.sin_two_mul, hsin, hcos]; ring]
    exact arg_mk_cos_sin hmem
  simp only [toInternal, toExternal, atan2, hyaw]
  rw [arg_mk_cos_sin hmem, show 2 * φ / 2 = φ by ring, hsin, hcos]

/-- Witness for C3 (amended): a concrete planar transform with translation
(1,2,0) and identity rotation round-trips exactly. -/
theorem roundTrip_planar_witness :
    quatNormSq (⟨⟨1, 2, 0⟩, ⟨0, 0, 0, 1⟩⟩ :
        geometry_msgs.Transform).rotation = 1 ∧
    toExternal (toInternal ⟨⟨1, 2, 0⟩, ⟨0, 0, 0, 1⟩⟩) =
      ⟨⟨1, 2, 0⟩, ⟨0, 0, 0, 1⟩⟩ :=
  ⟨by norm_num [quatNormSq],
   roundTrip_planar _ rfl rfl rfl (by norm_num [quatNormSq]) (by norm_num)⟩

/-- Counterexample to C5 as stated: for the unit-quaternion external
transform (1,0,0,0) (a half-turn about the in-plane x axis) and the 2D
point (0,1), applying the transform directly yields y = -1 while its
converted internal matrix (which keeps only the yaw, here zero) applied to
the homogeneous point yields y = 1. -/
theorem equivalence2d_counterexample :
    quatNormSq (⟨⟨0, 0, 0⟩, ⟨1, 0, 0, 0⟩⟩ :
        geometry_msgs.Transform).rotation = 1 ∧
    (applyTransform ⟨⟨0, 0, 0⟩, ⟨1, 0, 0, 0⟩⟩ ⟨0, 1, 1⟩).y ≠
      (applyHom (toInternal ⟨⟨0, 0, 0⟩, ⟨1, 0, 0, 0⟩⟩) 0 1).2 := by
  constructor
  · norm_num [quatNormSq]
  · have hyaw : yawOf ⟨1, 0, 0, 0⟩ = 0 := by
      simp only [yawOf, atan2]
      rw [show 2 * ((0 : ℝ) * 0 + 1 * 0) = 0 by ring,
        show 1 - 2 * ((0 : ℝ) ^ 2 + 0 ^ 2) = 1 by ring,
        show (⟨1, 0⟩ : ℂ) = 1 by apply Complex.ext <;> simp]
      exact Complex.arg_one
    simp only [applyTransform, applyHom, toInternal, hyaw, Real.cos_zero,
      Real.sin_zero]
    norm_num

/-- C5 (amended): the 2D-equivalence law holds for planar inputs.  Set
direction: for every ExternalTransform whose rotation is a unit quaternion
about the out-of-plane axis (x = y = 0) and every 2D point, applying the
transform directly and multiplying its converted InternalTransform with the
homogeneous point give the same x and y.  Get direction: the same holds
from any rotation-plus-translation InternalTransform matrix to the
ExternalTransform returned by the converter.  (The original claim over
every ExternalTransform fails for out-of-plane rotations, which the
converter discards.) -/
theorem equivalence2d_planar :
    (∀ t : geometry_msgs.Transform, t.rotation.x = 0 → t.rotation.y = 0 →
      t.rotation.z ^ 2 + t.rotation.w ^ 2 = 1 → ∀ px py : ℝ,
      (applyTransform t ⟨px, py, 1⟩).x = (applyHom (toInternal t) px py).1 ∧
      (applyTransform t ⟨px, py, 1⟩).y = (applyHom (toInternal t) px py).2) ∧
    (∀ a b tx ty : ℝ, a ^ 2 + b ^ 2 = 1 → ∀ px py : ℝ,
      (applyTransform (toExternal ⟨a, -b, tx, b, a, ty, 0, 0, 1⟩)
          ⟨px, py, 1⟩).x = (applyHom ⟨a, -b, tx, b, a, ty, 0, 0, 1⟩ px py).1 ∧
      (applyTransform (toExternal ⟨a, -b, tx, b, a, ty, 0, 0, 1⟩)
          ⟨px, py, 1⟩).y = (applyHom ⟨a, -b, tx, b, a, ty, 0, 0, 1⟩ px py).2) := by
  constructor
  · intro t hx hy hunit px py
    obtain ⟨⟨tx, ty, tz⟩, ⟨qx, qy, qz, qw⟩⟩ := t
    dsimp only at hx hy hunit
    subst hx hy
    have hcirc : (1 - 2 * qz ^ 2) ^ 2 + (2 * qw * qz) ^ 2 = 1 := by nlinarith
    have hcos : Real.cos (yawOf ⟨0, 0, qz, qw⟩) = 1 - 2 * qz ^ 2 := by
      simp only [yawOf, atan2]
      rw [show 2 * (qw * qz + (0 : ℝ) * 0) = 2 * qw * qz by ring,
        show 1 - 2 * ((0 : ℝ) ^ 2 + qz ^ 2) = 1 - 2 * qz ^ 2 by ring]
      exact cos_arg_unit hcirc
    have hsin : Real.sin (yawOf ⟨0, 0, qz, qw⟩) = 2 * qw * qz := by
      simp only [yawOf, atan2]
      rw [show 2 * (qw * qz + (0 : ℝ) * 0) = 2 * qw * qz by ring,
        show 1 - 2 * ((0 : ℝ) ^ 2 + qz ^ 2) = 1 - 2 * qz ^ 2 by ring]
      exact sin_arg_unit hcirc
    simp only [applyTransform, applyHom, toInternal, hcos, hsin]
    constructor <;> ring
  · intro a b tx ty hab px py
    have hcosA : Real.cos (atan2 b a) = a := by
      simp only [atan2]
      exact cos_arg_unit hab
    have hsinA : Real.sin (atan2 b a) = b := by
      simp only [atan2]
      exact sin_arg_unit hab
    have h1 : 1 - 2 * Real.sin (atan2 b a / 2) ^ 2 = a := by
      rw [one_sub_two_sin_sq, show 2 * (atan2 b a / 2) = atan2 b a by ring]
      exact hcosA
    have h2 : 2 * Real.sin (atan2 b a / 2) * Real.cos (atan2 b a / 2) = b := by
      rw [show 2 * Real.sin (atan2 b a / 2) * Real.cos (atan2 b a / 2)
            = Real.sin (2 * (atan2 b a / 2)) from
          (Real.sin_two_mul (atan2 b a / 2)).symm,
        show 2 * (atan2 b a / 2) = atan2 b a by ring]
      exact hsinA
    simp only [applyTransform, applyHom, toExternal]
    constructor
    · linear_combination px * h1 - py * h2
    · linear_combination px * h2 + py * h1

/-- Witness for C5 (amended): both directions evaluated at concrete planar
inputs (identity rotation, and a quarter-turn matrix). -/
theorem equivalence2d_planar_witness :
    ((0 : ℝ) ^ 2 + (1 : ℝ) ^ 2 = 1) ∧
    (applyTransform ⟨⟨0, 0, 0⟩, ⟨0, 0, 0, 1⟩⟩ ⟨1, 0, 1⟩).x
      = (applyHom (toInternal ⟨⟨0, 0, 0⟩, ⟨0, 0, 0, 1⟩⟩) 1 0).1 ∧
    (applyTransform (toExternal ⟨0, -1, 0, 1, 0, 0, 0, 0, 1⟩) ⟨1, 0, 1⟩).x
      = (applyHom ⟨0, -1, 0, 1, 0, 0, 0, 0, 1⟩ 1 0).1 :=
  ⟨by norm_num,
   (equivalence2d_planar.1 ⟨⟨0, 0, 0⟩, ⟨0, 0, 0, 1⟩⟩ rfl rfl
      (by norm_num) 1 0).1,
   (equivalence2d_planar.2 0 1 0 0 (by norm_num) 1 0).1⟩

/-- C1: for a pipeline holding exactly one grid (with the matching single
transform required by the precondition), `composeGrids` returns a grid
equal to that input grid: identical width, height, resolution, origin and
byte-for-byte identical cell data, with no resampling applied. -/
theorem composeGrids_single_grid (p : MergingPipeline) (g : OccupancyGrid)
    (hg : p.grids_ = [g]) (ht : p.transforms_.length = 1) :
    p.composeGrids = some g ∧
    p.composeGrids.map OccupancyGrid.width = some g.width ∧
    p.composeGrids.map OccupancyGrid.height = some g.height ∧
    p.composeGrids.map OccupancyGrid.resolution = some g.resolution ∧
    p.composeGrids.map OccupancyGrid.origin = some g.origin ∧
    p.composeGrids.map OccupancyGrid.data = some g.data := by
  have hmain : p.composeGrids = some g := by
    simp [MergingPipeline.composeGrids, hg, ht]
  refine ⟨hmain, ?_, ?_, ?_, ?_, ?_⟩ <;> simp [hmain]

/-- Witness for C1: a concrete single-grid pipeline composes to exactly its
input grid. -/
theorem composeGrids_single_grid_witness :
    (⟨[demoGrid], [mat3Id]⟩ : MergingPipeline).composeGrids = some demoGrid ∧
    (⟨[demoGrid], [mat3Id]⟩ : MergingPipeline).composeGrids.map
        OccupancyGrid.data = some demoGrid.data :=
  ⟨(composeGrids_single_grid ⟨[demoGrid], [mat3Id]⟩ demoGrid rfl rfl).1,
   (composeGrids_single_grid ⟨[demoGrid], [mat3Id]⟩ demoGrid rfl rfl).2.2.2.2.2⟩

/-- C2: `estimateTransform` succeeds trivially on 0 and 1 grids.  With 0
grids it returns true and an empty transform list; with 1 grid it returns
true and assigns the identity transform; in both cases the result does not
depend on the vision primitives (no feature work is performed); and a
false result can only arise with at least 2 grids. -/
theorem estimateTransform_trivial {Feat Mtch Cam : Type}
    (V V' : VisionPrimitives ImageG Feat Mtch Cam) (p : MergingPipeline) :
    (p.grids_ = [] →
      p.estimateTransform V = (true, { p with transforms_ := [] })) ∧
    (∀ g, p.grids_ = [g] →
      p.estimateTransform V = (true, { p with transforms_ := [mat3Id] })) ∧
    (p.grids_.length ≤ 1 →
      p.estimateTransform V = p.estimateTransform V') ∧
    ((p.estimateTransform V).1 = false → 2 ≤ p.grids_.length) := by
  refine ⟨?_, ?_, ?_, ?_⟩
  · intro h
    simp [MergingPipeline.estimateTransform, h]
  · intro g h
    simp [MergingPipeline.estimateTransform, h]
  · intro h
    rcases hg : p.grids_ with _ | ⟨g, _ | ⟨g2, rest⟩⟩
    · simp [MergingPipeline.estimateTransform, hg]
    · simp [MergingPipeline.estimateTransform, hg]
    · rw [hg] at h
      simp at h
  · intro h
    rcases hg : p.grids_ with _ | ⟨g, _ | ⟨g2, rest⟩⟩
    · simp [MergingPipeline.estimateTransform, hg] at h
    · simp [MergingPipeline.estimateTransform, hg] at h
    · simp [hg]

/-- Witness for C2: concrete 0-grid and 1-grid pipelines. -/
theorem estimateTransform_trivial_witness :
    MergingPipeline.estimateTransform demoV ⟨[], []⟩ =
      (true, (⟨[], []⟩ : MergingPipeline)) ∧
    MergingPipeline.estimateTransform demoV ⟨[demoGrid], []⟩ =
      (true, (⟨[demoGrid], [mat3Id]⟩ : MergingPipeline)) :=
  ⟨(estimateTransform_trivial demoV demoV ⟨[], []⟩).1 rfl,
   (estimateTransform_trivial demoV demoV ⟨[demoGrid], []⟩).2.1 demoGrid rfl⟩

/-- C7: whenever `estimateTransform` returns false, the stored transform
list is left empty and `getTransforms` observes no partial per-grid
transforms afterwards. -/
theorem estimateTransform_failure_atomic {Feat Mtch Cam : Type}
    (V : VisionPrimitives ImageG Feat Mtch Cam) (p p' : MergingPipeline)
    (h : p.estimateTransform V = (false, p')) :
    p'.transforms_ = [] ∧ p'.getTransforms = [] := by
  rcases hg : p.grids_ with _ | ⟨g, _ | ⟨g2, rest⟩⟩ <;>
    simp only [MergingPipeline.estimateTransform, hg] at h
  · exact Bool.noConfusion (congrArg Prod.fst h)
  · exact Bool.noConfusion (congrArg Prod.fst h)
  · split at h
    · have h2 := congrArg Prod.snd h
      dsimp at h2
      subst h2
      exact ⟨rfl, by simp [MergingPipeline.getTransforms]⟩
    · exact Bool.noConfusion (congrArg Prod.fst h)

/-- Witness for C7: a concrete 2-grid pipeline whose estimator fails ends
with no transforms observable. -/
theorem estimateTransform_failure_atomic_witness :
    (MergingPipeline.estimateTransform demoVFail
        ⟨[demoGrid, demoGrid2], [mat3Id]⟩).2.transforms_ = [] ∧
    (MergingPipeline.estimateTransform demoVFail
        ⟨[demoGrid, demoGrid2], [mat3Id]⟩).2.getTransforms = [] :=
  estimateTransform_failure_atomic demoVFail ⟨[demoGrid, demoGrid2], [mat3Id]⟩
    (MergingPipeline.estimateTransform demoVFail
      ⟨[demoGrid, demoGrid2], [mat3Id]⟩).2 rfl

/-- C8: a pipeline fed 0 grids composes to none and exposes an empty
transform sequence, both directly after feeding and after running the
(trivially succeeding) estimation. -/
theorem feed_empty_compose_none {Feat Mtch Cam : Type}
    (V : VisionPrimitives ImageG Feat Mtch Cam) (p₀ : MergingPipeline) :
    (MergingPipeline.feed [] p₀).composeGrids = none ∧
    (MergingPipeline.feed [] p₀).getTransforms = [] ∧
    ((MergingPipeline.feed [] p₀).estimateTransform V).2.composeGrids = none ∧
    ((MergingPipeline.feed [] p₀).estimateTransform V).2.getTransforms = [] := by
  refine ⟨?_, ?_, ?_, ?_⟩ <;>
    simp [MergingPipeline.feed, MergingPipeline.composeGrids,
      MergingPipeline.getTransforms, MergingPipeline.estimateTransform]

lemma demoV_contract :
    ∀ fs ms cs, demoV.estimate fs ms = some cs → cs.length = fs.length := by
  intro fs ms cs h
  simp only [demoV] at h
  obtain rfl := Option.some.inj h
  simp

/-- C9: whenever `estimateTransform` succeeds (given that the global
estimator honours its contract of one camera parameter set per image), the
stored transform list has one transform per input grid and its first
element is the identity, anchoring the global frame to input 0. -/
theorem estimateTransform_success_anchored {Feat Mtch Cam : Type}
    (V : VisionPrimitives ImageG Feat Mtch Cam)
    (hV : ∀ fs ms cs, V.estimate fs ms = some cs → cs.length = fs.length)
    (p p' : MergingPipeline) (h : p.estimateTransform V = (true, p')) :
    p'.transforms_.length = p.grids_.length ∧
    (p.grids_ ≠ [] → p'.transforms_.head? = some mat3Id) := by
  rcases hg : p.grids_ with _ | ⟨g, _ | ⟨g2, rest⟩⟩ <;>
    simp only [MergingPipeline.estimateTransform, hg] at h
  · have h2 := congrArg Prod.snd h
    dsimp at h2
    subst h2
    exact ⟨by simp, fun hne => absurd rfl hne⟩
  · have h2 := congrArg Prod.snd h
    dsimp at h2
    subst h2
    exact ⟨by simp, fun _ => rfl⟩
  · split at h
    · exact Bool.noConfusion (congrArg Prod.fst h)
    · rename_i cams heq
      have h2 := congrArg Prod.snd h
      dsimp at h2
      subst h2
      have hcl : cams.length = rest.length + 2 := by
        have := hV _ _ _ heq
        simpa using this
      rcases cams with _ | ⟨c0, cs⟩
      · simp at hcl
      · refine ⟨?_, fun _ => rfl⟩
        simp only [anchorTransforms, List.map_cons, hg]
        simp at hcl ⊢
        omega

/-- Witness for C9: a concrete 2-grid pipeline with an always-succeeding
estimator ends with 2 transforms, the first being the identity. -/
theorem estimateTransform_success_anchored_witness :
    (MergingPipeline.estimateTransform demoV
        ⟨[demoGrid, demoGrid2], []⟩).2.transforms_.length = 2 ∧
    (MergingPipeline.estimateTransform demoV
        ⟨[demoGrid, demoGrid2], []⟩).2.transforms_.head? = some mat3Id := by
  obtain ⟨h1, h2⟩ := estimateTransform_success_anchored demoV demoV_contract
    ⟨[demoGrid, demoGrid2], []⟩
    (MergingPipeline.estimateTransform demoV ⟨[demoGrid, demoGrid2], []⟩).2 rfl
  exact ⟨h1, h2 (List.cons_ne_nil _ _)⟩

/-- C6: for 2 or more grids, `estimateTransform` rasterizes every grid,
extracts features per image, matches over the whole feature set, and runs
one global estimation; its boolean result agrees with the source primitive
`opencvEstimateTransform` on the rasterized images, and it returns true
exactly when the global estimator succeeds with one camera parameter set
per image. -/
theorem estimateTransform_pipeline_stages {Feat Mtch Cam : Type}
    (V : VisionPrimitives ImageG Feat Mtch Cam) (p : MergingPipeline)
    (hlen : 2 ≤ p.grids_.length)
    (hV : ∀ fs ms cs, V.estimate fs ms = some cs → cs.length = fs.length) :
    ((p.estimateTransform V).1 =
      opencvEstimateTransform V (p.grids_.map rasterize)) ∧
    ((p.estimateTransform V).1 = true ↔
      ∃ cams, V.estimate ((p.grids_.map rasterize).map V.findFeatures)
          (V.matchFeatures ((p.grids_.map rasterize).map V.findFeatures))
        = some cams ∧ cams.length = p.grids_.length) := by
  rcases hg : p.grids_ with _ | ⟨g, _ | ⟨g2, rest⟩⟩
  · rw [hg] at hlen
    simp at hlen
  · rw [hg] at hlen
    simp at hlen
  · have hnot : ¬ ((g :: g2 :: rest).map rasterize).length < 2 := by simp
    cases hres : V.estimate (((g :: g2 :: rest).map rasterize).map V.findFeatures)
        (V.matchFeatures (((g :: g2 :: rest).map rasterize).map V.findFeatures)) with
    | none =>
      constructor
      · simp only [MergingPipeline.estimateTransform, hg, opencvEstimateTransform]
        rw [if_neg hnot, hres]
      · simp only [MergingPipeline.estimateTransform, hg]
        rw [hres]
        simp
    | some cams =>
      have hcl : cams.length = rest.length + 2 := by
        have := hV _ _ _ hres
        simpa using this
      constructor
      · simp only [MergingPipeline.estimateTransform, hg, opencvEstimateTransform]
        rw [if_neg hnot, hres]
      · simp only [MergingPipeline.estimateTransform, hg]
        rw [hres]
        simp
        omega

/-- Witness for C6: a concrete 2-grid pipeline agrees with the source
primitive on its rasterized images. -/
theorem estimateTransform_pipeline_stages_witness :
    2 ≤ (⟨[demoGrid, demoGrid2], []⟩ : MergingPipeline).grids_.length ∧
    (MergingPipeline.estimateTransform demoV
        ⟨[demoGrid, demoGrid2], []⟩).1 =
      opencvEstimateTransform demoV ([demoGrid, demoGrid2].map rasterize) :=
  ⟨by norm_num,
   (estimateTransform_pipeline_stages demoV ⟨[demoGrid, demoGrid2], []⟩
      (by norm_num) demoV_contract).1⟩

/-- C10: the source primitive `opencvEstimateTransform` never exposes the
camera parameters it computes; for every input image list its only
observable output is the boolean saying whether there were at least two
images and the global estimator succeeded. -/
theorem opencvEstimateTransform_observable_bool {Img Feat Mtch Cam : Type}
    (V : VisionPrimitives Img Feat Mtch Cam) (images : List Img) :
    opencvEstimateTransform V images =
      (decide (2 ≤ images.length) &&
        (V.estimate (images.map V.findFeatures)
          (V.matchFeatures (images.map V.findFeatures))).isSome) := by
  simp only [opencvEstimateTransform]
  by_cases h : images.length < 2
  · rw [if_pos h]
    have h2 : ¬ 2 ≤ images.length := by omega
    simp [h2]
  · rw [if_neg h]
    have h2 : 2 ≤ images.length := by omega
    cases hres : V.estimate (images.map V.findFeatures)
        (V.matchFeatures (images.map V.findFeatures)) <;> simp [hres, h2]

end combine_grids
